import Mathlib

/-!
Verification development for the science-slideshow weather visualization
engine.  The TypeScript sources are shallowly embedded: pure numeric code is
translated to functions over `ℚ` (exact rational arithmetic idealizing the
JavaScript doubles) or `ℝ` (for trigonometric code), stateful scheduling code
becomes explicit state-passing step functions, and fallible code returns
`Option`/`Except`.  Each claim about the system is then settled by a theorem
about these definitions.
-/

namespace SlideShow

/-! ## JavaScript numeric primitives -/

/-- Truncation toward zero, as JavaScript applies to the quotient when
evaluating the `%` operator on numbers. -/
def qTrunc (r : ℚ) : ℤ := if 0 ≤ r then ⌊r⌋ else ⌈r⌉

/-- JavaScript remainder `x % y` on (rational-valued) numbers:
`x - y * trunc (x / y)`; the result carries the sign of the dividend. -/
def qRem (x y : ℚ) : ℚ := x - y * qTrunc (x / y)

/-- `Math.max(0, Math.min(1, v))`. -/
def clamp01 (v : ℚ) : ℚ := max 0 (min 1 v)

/-! ## Data model (part_001 lines 182-220) -/

/-- The `imperial` sub-object of a weather observation; only the fields the
classifier reads are modelled, each optional as in the TypeScript interface. -/
structure Imperial where
  temp : Option ℚ := none
  windSpeed : Option ℚ := none
  windGust : Option ℚ := none
  precipRate : Option ℚ := none
deriving DecidableEq

/-- `WeatherData` (part_001 lines 182-203), restricted to the fields the
claims touch. -/
structure WeatherData where
  imperial : Option Imperial := none
  humidity : Option ℚ := none
  uv : Option ℚ := none
  lat : Option ℚ := none
  lon : Option ℚ := none
deriving DecidableEq

/-- `const imp = (w && w.imperial) || {}` (part_001 line 552): a missing
observation or missing `imperial` degrades to an all-undefined record. -/
def impOf (w : Option WeatherData) : Imperial :=
  match w with
  | some w' => w'.imperial.getD {}
  | none => {}

/-! ## Theme classifier (part_001 lines 551-625)

The wall-clock fractional hour and the `getSunTimes` result are injected as
arguments `h` and `sun`; in the source they are produced by `new Date()` /
`timeOverride` and by the ephemeris collaborator. -/

/-- `temp != null && temp <= 33` (line 559). -/
def tempLe33 (imp : Imperial) : Bool :=
  match imp.temp with
  | some t => decide (t ≤ 33)
  | none => false

/-- `gust != null && gust > 20` (line 560). -/
def gustGt20 (imp : Imperial) : Bool :=
  match imp.windGust with
  | some g => decide (20 < g)
  | none => false

/-- The sunrise/sunset bucket chain shared verbatim by `inferTheme`
(lines 574-578) and `inferSkyTheme` (lines 613-617). -/
def sunSky (h sunrise sunset : ℚ) : String :=
  if sunrise - 0.33 ≤ h ∧ h < sunrise + 0.83 then "rise"
  else if sunrise + 0.83 ≤ h ∧ h < sunset - 1.5 then "day"
  else if sunset - 1.5 ≤ h ∧ h < sunset - 0.5 then "golden"
  else if sunset - 0.5 ≤ h ∧ h < sunset + 0.5 then "sunset"
  else "night"

/-- The fixed-threshold fallback shared verbatim by `inferTheme`
(lines 583-587) and `inferSkyTheme` (lines 620-624). -/
def fixedSky (h : ℚ) : String :=
  if 5 ≤ h ∧ h < 7 then "rise"
  else if 7 ≤ h ∧ h < 17 then "day"
  else if 17 ≤ h ∧ h < 19 then "golden"
  else if 19 ≤ h ∧ h < 21 then "sunset"
  else "night"

/-- The non-precipitation remainder of `inferTheme` (lines 564-587): use the
station coordinates and sun times when available, otherwise fixed thresholds. -/
def inferThemeSky (w : Option WeatherData) (h : ℚ) (sun : Option ℚ × Option ℚ) : String :=
  match w with
  | some w' =>
    match w'.lat, w'.lon with
    | some _, some _ =>
      match sun with
      | (some sunrise, some sunset) => sunSky h sunrise sunset
      | _ => fixedSky h
    | _, _ => fixedSky h
  | none => fixedSky h

/-- `inferTheme` (part_001 lines 551-588): precipitation overrides everything,
then the sky classification applies. -/
def inferTheme (w : Option WeatherData) (h : ℚ) (sun : Option ℚ × Option ℚ) : String :=
  let imp := impOf w
  match imp.precipRate with
  | some rate =>
    if 0 < rate then
      if tempLe33 imp then "snow"
      else if gustGt20 imp || decide ((0.08 : ℚ) < rate) then "storm"
      else "rain"
    else inferThemeSky w h sun
  | none => inferThemeSky w h sun

/-- `inferSkyTheme` (part_001 lines 605-625): the time-of-day theme, always
ignoring precipitation; its body is the sky logic of `inferTheme` verbatim. -/
def inferSkyTheme (w : Option WeatherData) (h : ℚ) (sun : Option ℚ × Option ℚ) : String :=
  match w with
  | some w' =>
    match w'.lat, w'.lon with
    | some _, some _ =>
      match sun with
      | (some sunrise, some sunset) => sunSky h sunrise sunset
      | _ => fixedSky h
    | _, _ => fixedSky h
  | none => fixedSky h

/-! ## Celestial opacities (part_001 lines 464-549)

`positionCelestialBodies` only positions anything when coordinates and both
sun times are non-null; the opacities it computes in that case are modelled
here with `h`, `sunrise`, `sunset` injected.  The lunar phase is read only by
the disc renderer, not by the opacity computation, so it does not appear. -/

/-- `FADE = 0.04` (line 483). -/
def FADE : ℚ := 0.04

/-- The sun opacity (lines 481-486); `0` during precipitation. -/
def sunAlphaOf (isPrecip : Bool) (h sunrise sunset : ℚ) : ℚ :=
  let sunT := (h - sunrise) / (sunset - sunrise)
  if isPrecip then 0 else clamp01 (min (sunT / FADE) ((1 - sunT) / FADE))

/-- The moon's fractional arc position (lines 513-526), `none` when the hour
is outside the moon window.  `moonrise = sunset + 0.5`, `moonset =
sunrise - 0.33`, with the midnight wraparound branch from the source. -/
def moonTOf (h sunrise sunset : ℚ) : Option ℚ :=
  let moonrise := sunset + 0.5
  let moonset := sunrise - 0.33
  let moonDurHrs := qRem (moonset - moonrise + 24) 24
  if moonrise < moonset then
    if moonrise ≤ h ∧ h < moonset then some ((h - moonrise) / moonDurHrs) else none
  else
    if moonrise ≤ h then some ((h - moonrise) / moonDurHrs)
    else if h < moonset then some ((h + 24 - moonrise) / moonDurHrs)
    else none

/-- The moon opacity (lines 508-529); the precipitation early-return hides the
moon entirely. -/
def moonAlphaOf (isPrecip : Bool) (h sunrise sunset : ℚ) : ℚ :=
  if isPrecip then 0
  else
    match moonTOf h sunrise sunset with
    | some t => clamp01 (min (t / FADE) ((1 - t) / FADE))
    | none => 0

/-! ## Characterizations of the bucket chains -/

lemma tempLe33_iff (imp : Imperial) :
    tempLe33 imp = true ↔ ∃ t, imp.temp = some t ∧ t ≤ 33 := by
  rcases himp : imp.temp with _ | t <;> simp [tempLe33, himp]

lemma gustGt20_iff (imp : Imperial) :
    gustGt20 imp = true ↔ ∃ g, imp.windGust = some g ∧ 20 < g := by
  rcases himp : imp.windGust with _ | g <;> simp [gustGt20, himp]

lemma sunSky_eq_rise_iff (h r s : ℚ) :
    sunSky h r s = "rise" ↔ r - 0.33 ≤ h ∧ h < r + 0.83 := by
  unfold sunSky
  split_ifs with h1 h2 h3 h4
  · exact iff_of_true rfl h1
  · exact iff_of_false (by decide) h1
  · exact iff_of_false (by decide) h1
  · exact iff_of_false (by decide) h1
  · exact iff_of_false (by decide) h1

lemma sunSky_eq_day_iff (h r s : ℚ) :
    sunSky h r s = "day" ↔ r + 0.83 ≤ h ∧ h < s - 1.5 := by
  unfold sunSky
  split_ifs with h1 h2 h3 h4
  · exact iff_of_false (by decide) fun hd => absurd h1.2 (not_lt.mpr hd.1)
  · exact iff_of_true rfl h2
  · exact iff_of_false (by decide) h2
  · exact iff_of_false (by decide) h2
  · exact iff_of_false (by decide) h2

lemma sunSky_eq_golden_iff (h r s : ℚ) :
    sunSky h r s = "golden" ↔
      (s - 1.5 ≤ h ∧ h < s - 0.5) ∧ ¬(r - 0.33 ≤ h ∧ h < r + 0.83) := by
  unfold sunSky
  split_ifs with h1 h2 h3 h4
  · exact iff_of_false (by decide) fun hg => hg.2 h1
  · exact iff_of_false (by decide) fun hg => absurd hg.1.1 (not_le.mpr h2.2)
  · exact iff_of_true rfl ⟨h3, h1⟩
  · exact iff_of_false (by decide) fun hg => h3 hg.1
  · exact iff_of_false (by decide) fun hg => h3 hg.1

lemma sunSky_eq_sunset_iff (h r s : ℚ) :
    sunSky h r s = "sunset" ↔
      (s - 0.5 ≤ h ∧ h < s + 0.5) ∧ ¬(r - 0.33 ≤ h ∧ h < r + 0.83) := by
  unfold sunSky
  split_ifs with h1 h2 h3 h4
  · exact iff_of_false (by decide) fun hs => hs.2 h1
  · exact iff_of_false (by decide) fun hs => by
      have := hs.1.1; have := h2.2; linarith
  · exact iff_of_false (by decide) fun hs => by
      have := hs.1.1; have := h3.2; linarith
  · exact iff_of_true rfl ⟨h4, h1⟩
  · exact iff_of_false (by decide) fun hs => h4 hs.1

lemma sunSky_eq_night_iff (h r s : ℚ) :
    sunSky h r s = "night" ↔
      ¬(r - 0.33 ≤ h ∧ h < r + 0.83) ∧ ¬(r + 0.83 ≤ h ∧ h < s - 1.5) ∧
      ¬(s - 1.5 ≤ h ∧ h < s - 0.5) ∧ ¬(s - 0.5 ≤ h ∧ h < s + 0.5) := by
  unfold sunSky
  split_ifs with h1 h2 h3 h4
  · exact iff_of_false (by decide) fun hn => hn.1 h1
  · exact iff_of_false (by decide) fun hn => hn.2.1 h2
  · exact iff_of_false (by decide) fun hn => hn.2.2.1 h3
  · exact iff_of_false (by decide) fun hn => hn.2.2.2 h4
  · exact iff_of_true rfl ⟨h1, h2, h3, h4⟩

lemma fixedSky_eq_rise_iff (h : ℚ) : fixedSky h = "rise" ↔ 5 ≤ h ∧ h < 7 := by
  unfold fixedSky
  split_ifs with h1 h2 h3 h4
  · exact iff_of_true rfl h1
  · exact iff_of_false (by decide) h1
  · exact iff_of_false (by decide) h1
  · exact iff_of_false (by decide) h1
  · exact iff_of_false (by decide) h1

lemma fixedSky_eq_day_iff (h : ℚ) : fixedSky h = "day" ↔ 7 ≤ h ∧ h < 17 := by
  unfold fixedSky
  split_ifs with h1 h2 h3 h4
  · exact iff_of_false (by decide) fun hd => by
      have := h1.2; have := hd.1; linarith
  · exact iff_of_true rfl h2
  · exact iff_of_false (by decide) h2
  · exact iff_of_false (by decide) h2
  · exact iff_of_false (by decide) h2

lemma fixedSky_eq_golden_iff (h : ℚ) : fixedSky h = "golden" ↔ 17 ≤ h ∧ h < 19 := by
  unfold fixedSky
  split_ifs with h1 h2 h3 h4
  · exact iff_of_false (by decide) fun hg => by
      have := h1.2; have := hg.1; linarith
  · exact iff_of_false (by decide) fun hg => by
      have := h2.2; have := hg.1; linarith
  · exact iff_of_true rfl h3
  · exact iff_of_false (by decide) h3
  · exact iff_of_false (by decide) h3

lemma fixedSky_eq_sunset_iff (h : ℚ) : fixedSky h = "sunset" ↔ 19 ≤ h ∧ h < 21 := by
  unfold fixedSky
  split_ifs with h1 h2 h3 h4
  · exact iff_of_false (by decide) fun hs => by
      have := h1.2; have := hs.1; linarith
  · exact iff_of_false (by decide) fun hs => by
      have := h2.2; have := hs.1; linarith
  · exact iff_of_false (by decide) fun hs => by
      have := h3.2; have := hs.1; linarith
  · exact iff_of_true rfl h4
  · exact iff_of_false (by decide) h4

lemma fixedSky_eq_night_iff (h : ℚ) :
    fixedSky h = "night" ↔
      ¬(5 ≤ h ∧ h < 7) ∧ ¬(7 ≤ h ∧ h < 17) ∧ ¬(17 ≤ h ∧ h < 19) ∧ ¬(19 ≤ h ∧ h < 21) := by
  unfold fixedSky
  split_ifs with h1 h2 h3 h4
  · exact iff_of_false (by decide) fun hn => hn.1 h1
  · exact iff_of_false (by decide) fun hn => hn.2.1 h2
  · exact iff_of_false (by decide) fun hn => hn.2.2.1 h3
  · exact iff_of_false (by decide) fun hn => hn.2.2.2 h4
  · exact iff_of_true rfl ⟨h1, h2, h3, h4⟩

lemma inferThemeSky_eq_inferSkyTheme (w : Option WeatherData) (h : ℚ)
    (sun : Option ℚ × Option ℚ) : inferThemeSky w h sun = inferSkyTheme w h sun := rfl

lemma inferTheme_rate_pos (w : Option WeatherData) (h : ℚ) (sun : Option ℚ × Option ℚ)
    (rate : ℚ) (hr : (impOf w).precipRate = some rate) (hpos : 0 < rate) :
    inferTheme w h sun =
      if tempLe33 (impOf w) then "snow"
      else if gustGt20 (impOf w) || decide ((0.08 : ℚ) < rate) then "storm"
      else "rain" := by
  simp only [inferTheme, hr, if_pos hpos]

lemma inferSkyTheme_coords (w' : WeatherData) (la lo h r s : ℚ)
    (hla : w'.lat = some la) (hlo : w'.lon = some lo) :
    inferSkyTheme (some w') h (some r, some s) = sunSky h r s := by
  simp only [inferSkyTheme, hla, hlo]

/-- Example observation from the spec: temp 28 °F, precip rate 0.05 in/hr. -/
def obsSnowEx : WeatherData :=
  { imperial := some { temp := some 28, precipRate := some 0.05 } }

/-- Example observation from the spec: temp 55 °F, gust 10 mph, rate 0.1 in/hr. -/
def obsStormEx : WeatherData :=
  { imperial := some { temp := some 55, windGust := some 10, precipRate := some 0.1 } }

/-- Example observation from the spec: temp 60 °F, gust 5 mph, rate 0.02 in/hr. -/
def obsRainEx : WeatherData :=
  { imperial := some { temp := some 60, windGust := some 5, precipRate := some 0.02 } }

/-- C4: for observations with a positive precipitation rate, the classified
theme is `snow` exactly when a temperature is present and at most 33 °F,
otherwise `storm` exactly when a gust above 20 mph is present or the rate
exceeds 0.08 in/hr, otherwise `rain`; when the rate is 0 or absent the result
equals the sky classification for the same hour; and the three concrete
example observations classify to `snow`, `storm` and `rain`. -/
theorem c4_classify_precip :
    (∀ (w : Option WeatherData) (h : ℚ) (sun : Option ℚ × Option ℚ) (rate : ℚ),
      (impOf w).precipRate = some rate → 0 < rate →
      ((inferTheme w h sun = "snow" ↔ ∃ t, (impOf w).temp = some t ∧ t ≤ 33) ∧
       (inferTheme w h sun = "storm" ↔
         ¬(∃ t, (impOf w).temp = some t ∧ t ≤ 33) ∧
           ((∃ g, (impOf w).windGust = some g ∧ 20 < g) ∨ 0.08 < rate)) ∧
       (inferTheme w h sun = "rain" ↔
         ¬(∃ t, (impOf w).temp = some t ∧ t ≤ 33) ∧
           ¬((∃ g, (impOf w).windGust = some g ∧ 20 < g) ∨ 0.08 < rate)))) ∧
    (∀ (w : Option WeatherData) (h : ℚ) (sun : Option ℚ × Option ℚ),
      ((impOf w).precipRate = none ∨ (impOf w).precipRate = some 0) →
      inferTheme w h sun = inferSkyTheme w h sun) ∧
    inferTheme (some obsSnowEx) 12 (none, none) = "snow" ∧
    inferTheme (some obsStormEx) 12 (none, none) = "storm" ∧
    inferTheme (some obsRainEx) 12 (none, none) = "rain" := by
  refine ⟨?_, ?_, ?_, ?_, ?_⟩
  · intro w h sun rate hr hpos
    rw [inferTheme_rate_pos w h sun rate hr hpos]
    rcases ht : tempLe33 (impOf w) with _ | _
    · have htn : ¬∃ t, (impOf w).temp = some t ∧ t ≤ 33 := fun hex => by
        rw [(tempLe33_iff _).mpr hex] at ht; exact Bool.noConfusion ht
      rcases hg : (gustGt20 (impOf w) || decide ((0.08 : ℚ) < rate)) with _ | _
      · have hgn : ¬((∃ g, (impOf w).windGust = some g ∧ 20 < g) ∨ 0.08 < rate) := by
          rcases Bool.or_eq_false_iff.mp hg with ⟨hg1, hg2⟩
          rintro (hex | hrt)
          · rw [(gustGt20_iff _).mpr hex] at hg1; exact Bool.noConfusion hg1
          · rw [decide_eq_true hrt] at hg2; exact Bool.noConfusion hg2
        rw [if_neg Bool.false_ne_true, if_neg Bool.false_ne_true]
        exact ⟨iff_of_false (by decide) fun hex => htn hex,
          iff_of_false (by decide) fun hc => hgn hc.2,
          iff_of_true rfl ⟨htn, hgn⟩⟩
      · have hgy : (∃ g, (impOf w).windGust = some g ∧ 20 < g) ∨ 0.08 < rate := by
          rcases Bool.or_eq_true_iff.mp hg with hg1 | hg2
          · exact Or.inl ((gustGt20_iff _).mp hg1)
          · exact Or.inr (of_decide_eq_true hg2)
        rw [if_neg Bool.false_ne_true, if_pos rfl]
        exact ⟨iff_of_false (by decide) fun hex => htn hex,
          iff_of_true rfl ⟨htn, hgy⟩,
          iff_of_false (by decide) fun hc => hc.2 hgy⟩
    · have hty : ∃ t, (impOf w).temp = some t ∧ t ≤ 33 := (tempLe33_iff _).mp ht
      rw [if_pos rfl]
      exact ⟨iff_of_true rfl hty,
        iff_of_false (by decide) fun hc => hc.1 hty,
        iff_of_false (by decide) fun hc => hc.1 hty⟩
  · rintro w h sun (hr | hr) <;>
      simp [inferTheme, hr, inferThemeSky_eq_inferSkyTheme]
  · norm_num [inferTheme, impOf, obsSnowEx, tempLe33]
  · norm_num [inferTheme, impOf, obsStormEx, tempLe33, gustGt20]
  · norm_num [inferTheme, impOf, obsRainEx, tempLe33, gustGt20]

/-- Witness for C4 at a concrete observation: the snow characterization holds
for temp 28 °F, rate 0.05 in/hr. -/
theorem c4_classify_precip_witness :
    (impOf (some obsSnowEx)).precipRate = some 0.05 ∧ (0 : ℚ) < 0.05 ∧
      (inferTheme (some obsSnowEx) 12 (none, none) = "snow" ↔
        ∃ t, (impOf (some obsSnowEx)).temp = some t ∧ t ≤ 33) :=
  ⟨rfl, by norm_num,
    (c4_classify_precip.1 (some obsSnowEx) 12 (none, none) 0.05 rfl (by norm_num)).1⟩

lemma inferSkyTheme_fallback (w : Option WeatherData) (h : ℚ) (sun : Option ℚ × Option ℚ)
    (hmiss : w = none ∨ (∃ w', w = some w' ∧ (w'.lat = none ∨ w'.lon = none)) ∨
      sun.1 = none ∨ sun.2 = none) :
    inferSkyTheme w h sun = fixedSky h := by
  rcases hmiss with rfl | ⟨w', rfl, hla | hlo⟩ | h1 | h2
  · rfl
  · simp [inferSkyTheme, hla]
  · rcases hla : w'.lat with _ | la <;> simp [inferSkyTheme, hla, hlo]
  · rcases sun with ⟨s1, s2⟩
    simp only at h1
    subst h1
    rcases w with _ | w'
    · rfl
    rcases hla : w'.lat with _ | la <;> rcases hlo : w'.lon with _ | lo <;>
      simp [inferSkyTheme, hla, hlo]
  · rcases sun with ⟨s1, s2⟩
    simp only at h2
    subst h2
    rcases w with _ | w'
    · rfl
    rcases hla : w'.lat with _ | la <;> rcases hlo : w'.lon with _ | lo <;>
      rcases s1 with _ | sr <;> simp [inferSkyTheme, hla, hlo]

/-- C5 (amended): with coordinates and non-null sun times the sky theme is
characterized window by window: `rise` and `day` exactly as the claimed
windows state; `golden` and `sunset` additionally require the hour not to lie
in the `rise` window, which precedes them in the source's guard chain (this
only matters when the windows overlap, i.e. when daylight is shorter than
2.33 h); `night` holds exactly when the hour is in none of the four windows.
Without coordinates (or with null sun times) the fixed thresholds apply
exactly as claimed, and local noon yields `day` whenever the sun times
bracket it with the stated margins (as they do at lat 38.9 / lon −92.3). -/
theorem c5_sky_buckets :
    (∀ (w' : WeatherData) (la lo h sunrise sunset : ℚ),
      w'.lat = some la → w'.lon = some lo →
      ((inferSkyTheme (some w') h (some sunrise, some sunset) = "rise" ↔
          sunrise - 0.33 ≤ h ∧ h < sunrise + 0.83) ∧
       (inferSkyTheme (some w') h (some sunrise, some sunset) = "day" ↔
          sunrise + 0.83 ≤ h ∧ h < sunset - 1.5) ∧
       (inferSkyTheme (some w') h (some sunrise, some sunset) = "golden" ↔
          (sunset - 1.5 ≤ h ∧ h < sunset - 0.5) ∧
            ¬(sunrise - 0.33 ≤ h ∧ h < sunrise + 0.83)) ∧
       (inferSkyTheme (some w') h (some sunrise, some sunset) = "sunset" ↔
          (sunset - 0.5 ≤ h ∧ h < sunset + 0.5) ∧
            ¬(sunrise - 0.33 ≤ h ∧ h < sunrise + 0.83)) ∧
       (inferSkyTheme (some w') h (some sunrise, some sunset) = "night" ↔
          ¬(sunrise - 0.33 ≤ h ∧ h < sunrise + 0.83) ∧
          ¬(sunrise + 0.83 ≤ h ∧ h < sunset - 1.5) ∧
          ¬(sunset - 1.5 ≤ h ∧ h < sunset - 0.5) ∧
          ¬(sunset - 0.5 ≤ h ∧ h < sunset + 0.5)))) ∧
    (∀ h : ℚ,
      (fixedSky h = "rise" ↔ 5 ≤ h ∧ h < 7) ∧
      (fixedSky h = "day" ↔ 7 ≤ h ∧ h < 17) ∧
      (fixedSky h = "golden" ↔ 17 ≤ h ∧ h < 19) ∧
      (fixedSky h = "sunset" ↔ 19 ≤ h ∧ h < 21) ∧
      (fixedSky h = "night" ↔
        ¬(5 ≤ h ∧ h < 7) ∧ ¬(7 ≤ h ∧ h < 17) ∧ ¬(17 ≤ h ∧ h < 19) ∧ ¬(19 ≤ h ∧ h < 21))) ∧
    (∀ (w : Option WeatherData) (h : ℚ) (sun : Option ℚ × Option ℚ),
      (w = none ∨ (∃ w', w = some w' ∧ (w'.lat = none ∨ w'.lon = none)) ∨
        sun.1 = none ∨ sun.2 = none) →
      inferSkyTheme w h sun = fixedSky h) ∧
    (∀ (w' : WeatherData) (la lo sunrise sunset : ℚ),
      w'.lat = some la → w'.lon = some lo →
      sunrise + 0.83 ≤ 12 → (12 : ℚ) < sunset - 1.5 →
      inferSkyTheme (some w') 12 (some sunrise, some sunset) = "day") := by
  refine ⟨?_, ?_, inferSkyTheme_fallback, ?_⟩
  · intro w' la lo h sunrise sunset hla hlo
    rw [inferSkyTheme_coords w' la lo h sunrise sunset hla hlo]
    exact ⟨sunSky_eq_rise_iff h sunrise sunset, sunSky_eq_day_iff h sunrise sunset,
      sunSky_eq_golden_iff h sunrise sunset, sunSky_eq_sunset_iff h sunrise sunset,
      sunSky_eq_night_iff h sunrise sunset⟩
  · intro h
    exact ⟨fixedSky_eq_rise_iff h, fixedSky_eq_day_iff h, fixedSky_eq_golden_iff h,
      fixedSky_eq_sunset_iff h, fixedSky_eq_night_iff h⟩
  · intro w' la lo sunrise sunset hla hlo h1 h2
    rw [inferSkyTheme_coords w' la lo 12 sunrise sunset hla hlo]
    exact (sunSky_eq_day_iff 12 sunrise sunset).mpr ⟨h1, h2⟩

/-- C5 counterexample: with sunrise 10 and sunset 11 (a one-hour day, reachable
near the polar circles) the hour 9.7 lies in the claimed golden window
[sunset − 1.5, sunset − 0.5) yet is classified `rise` because the rise window
[sunrise − 0.33, sunrise + 0.83) overlaps it and is checked first, so the
claimed `golden`-iff characterization fails. -/
theorem c5_sky_buckets_counterexample :
    inferSkyTheme (some { lat := some 70, lon := some 25 }) 9.7 (some 10, some 11) = "rise" ∧
    ((11 : ℚ) - 1.5 ≤ 9.7 ∧ (9.7 : ℚ) < 11 - 0.5) ∧
    ¬(inferSkyTheme (some { lat := some 70, lon := some 25 }) 9.7 (some 10, some 11) = "golden" ↔
        ((11 : ℚ) - 1.5 ≤ 9.7 ∧ (9.7 : ℚ) < 11 - 0.5)) := by
  have h1 : inferSkyTheme (some { lat := some 70, lon := some 25 }) 9.7
      (some 10, some 11) = "rise" := by
    rw [inferSkyTheme_coords _ 70 25 9.7 10 11 rfl rfl]
    exact (sunSky_eq_rise_iff 9.7 10 11).mpr (by norm_num)
  refine ⟨h1, by norm_num, fun hiff => ?_⟩
  have h2 := hiff.mpr (by norm_num)
  rw [h1] at h2
  exact absurd h2 (by decide)

/-- Witness for C5 at a concrete mid-latitude observation: sun times 6 and 19
bracket noon with the stated margins, so noon classifies as `day`. -/
theorem c5_sky_buckets_witness :
    inferSkyTheme (some { lat := some 39, lon := some (-92) }) 12 (some 6, some 19) = "day" :=
  c5_sky_buckets.2.2.2 { lat := some 39, lon := some (-92) } 39 (-92) 6 19 rfl rfl
    (by norm_num) (by norm_num)

/-! ## C2: the sun and moon opacity windows never overlap -/

lemma clamp01_pos_iff (v : ℚ) : 0 < clamp01 v ↔ 0 < v := by
  simp [clamp01, lt_max_iff, lt_min_iff]

/-- C2: for any non-null sunrise/sunset pair with sunrise < sunset and any
fractional hour in [0, 24), the sun opacity and moon opacity computed by
`positionCelestialBodies` in the same call are never both strictly positive. -/
theorem c2_sun_moon_never_both_visible (p : Bool) (h sunrise sunset : ℚ)
    (hlt : sunrise < sunset) (h0 : 0 ≤ h) (h24 : h < 24) :
    ¬(0 < sunAlphaOf p h sunrise sunset ∧ 0 < moonAlphaOf p h sunrise sunset) := by
  rintro ⟨hs, hm⟩
  cases p
  case true => simp [sunAlphaOf] at hs
  case false =>
  have hF : (0 : ℚ) < FADE := by norm_num [FADE]
  have hden : (0 : ℚ) < sunset - sunrise := sub_pos.mpr hlt
  simp only [sunAlphaOf, Bool.false_eq_true, if_false] at hs
  rw [clamp01_pos_iff, lt_min_iff] at hs
  have hT0 : 0 < (h - sunrise) / (sunset - sunrise) := by
    rcases div_pos_iff.mp hs.1 with ⟨ha, _⟩ | ⟨_, hb⟩
    · exact ha
    · exact absurd hb (by norm_num [FADE])
  have hT1 : (h - sunrise) / (sunset - sunrise) < 1 := by
    have : 0 < 1 - (h - sunrise) / (sunset - sunrise) := by
      rcases div_pos_iff.mp hs.2 with ⟨ha, _⟩ | ⟨_, hb⟩
      · exact ha
      · exact absurd hb (by norm_num [FADE])
    linarith
  have hsunrise_lt : sunrise < h := by
    rcases div_pos_iff.mp hT0 with ⟨ha, _⟩ | ⟨_, hb⟩
    · linarith
    · linarith
  have hlt_sunset : h < sunset := by
    have := (div_lt_one hden).mp hT1
    linarith
  simp only [moonAlphaOf, Bool.false_eq_true, if_false] at hm
  rcases hmt : moonTOf h sunrise sunset with _ | t
  · rw [hmt] at hm
    exact absurd hm (by norm_num)
  · simp only [moonTOf] at hmt
    split_ifs at hmt with w1 w2 w2' w3 <;>
      first
      | exact Option.noConfusion hmt
      | linarith

/-- Witness for C2: at sunrise 6, sunset 18, hour 12 (sun fully up, moon
hidden) the two opacities are indeed not both positive. -/
theorem c2_sun_moon_never_both_visible_witness :
    (6 : ℚ) < 18 ∧ (0 : ℚ) ≤ 12 ∧ (12 : ℚ) < 24 ∧
      ¬(0 < sunAlphaOf false 12 6 18 ∧ 0 < moonAlphaOf false 12 6 18) :=
  ⟨by norm_num, by norm_num, by norm_num,
    c2_sun_moon_never_both_visible false 12 6 18 (by norm_num) (by norm_num) (by norm_num)⟩

/-! ## Particle systems and scheduler handles (part_001 lines 707-1036)

`applyTheme` keeps one live handle per self-rescheduling system: the
rain/snow/storm animation-frame loop (`animId`), the lightning strike
scheduler (`lightningTimeout`) and the shooting-star scheduler
(`shootTimeout`).  The model tracks the stored handle variables, the
scheduler's pending queue, and a fresh-id counter; each handle records the
`applyTheme` call (epoch) that armed it.  One-shot cosmetic timers (bolt
flash decay, shooting-star element removal, the treeline redraw delay) touch
no particle pool and are outside the three schedulers the claim names. -/

inductive HKind
  | anim
  | lightning
  | shoot
deriving DecidableEq

structure Handle where
  id : ℕ
  owner : ℕ
  kind : HKind
deriving DecidableEq

structure SchedState where
  animId : Option Handle := none
  lightningTimeout : Option Handle := none
  shootTimeout : Option Handle := none
  pending : List Handle := []
  fresh : ℕ := 0
deriving DecidableEq

/-- The stored handle variable for each system. -/
def slotOf (s : SchedState) : HKind → Option Handle
  | .anim => s.animId
  | .lightning => s.lightningTimeout
  | .shoot => s.shootTimeout

/-- Remove one handle from the scheduler's pending queue; the stored handle
variables are untouched. -/
def dropPending (s : SchedState) (hdl : Handle) : SchedState :=
  { s with pending := s.pending.erase hdl }

/-- `cancelAnimationFrame(animId)` / `clearTimeout(...)`: remove the stored
handle from the scheduler's pending queue (the variable keeps its stale
value, as in JavaScript, where cancelling an unknown id is a no-op). -/
def cancelSlot (s : SchedState) (k : HKind) : SchedState :=
  match slotOf s k with
  | some hdl => dropPending s hdl
  | none => s

/-- `requestAnimationFrame(step)` / `setTimeout(strike, ...)` /
`setTimeout(shootStar, ...)`: allocate a fresh handle owned by `owner`,
store it in the system's variable and enqueue it. -/
def armSlot (s : SchedState) (k : HKind) (owner : ℕ) : SchedState :=
  let hdl : Handle := ⟨s.fresh, owner, k⟩
  match k with
  | .anim => { s with animId := some hdl, pending := hdl :: s.pending, fresh := s.fresh + 1 }
  | .lightning =>
    { s with lightningTimeout := some hdl, pending := hdl :: s.pending, fresh := s.fresh + 1 }
  | .shoot =>
    { s with shootTimeout := some hdl, pending := hdl :: s.pending, fresh := s.fresh + 1 }

/-- The build calls `applyParticlesAndLighting` can issue. -/
inductive Cmd
  | initRain (heavy : Bool)
  | animLoop (type : String)
  | buildLightning
  | initSnow
  | buildStars
  | buildFireflies
  | buildMist (r g b : ℕ)
  | buildWindStreaks (wind : ℚ)
deriving DecidableEq

/-- `applyParticlesAndLighting` (part_001 lines 1011-1036) as the ordered list
of build calls it performs for a given precip/sky theme pair. -/
def applyParticlesAndLighting (precipTheme skyTheme : String) (windSpeed : ℚ) : List Cmd :=
  (if precipTheme = "rain" then [.initRain false, .animLoop "rain"]
   else if precipTheme = "storm" then [.initRain true, .animLoop "storm", .buildLightning]
   else if precipTheme = "snow" then [.initSnow, .animLoop "snow"]
   else if skyTheme = "night" then [.buildStars, .buildFireflies]
   else if skyTheme = "rise" then [.buildMist 235 142 68]
   else if skyTheme = "golden" then [.buildMist 215 132 48]
   else if skyTheme = "sunset" then [.buildMist 195 60 30]
   else []) ++
  (if precipTheme ≠ "rain" ∧ precipTheme ≠ "storm" ∧ precipTheme ≠ "snow" then
    [.buildWindStreaks windSpeed]
  else [])

/-- Scheduler effect of one build call: `animLoop` arms the frame loop,
`buildLightning` arms the strike scheduler, `buildStars` clears and re-arms
the shooting-star scheduler (lines 819 and 833); the remaining calls only
create CSS-animated DOM nodes and arm nothing. -/
def runCmd (epoch : ℕ) (s : SchedState) : Cmd → SchedState
  | .animLoop _ => armSlot s .anim epoch
  | .buildLightning => armSlot s .lightning epoch
  | .buildStars => armSlot (cancelSlot s .shoot) .shoot epoch
  | _ => s

/-- The cancellation prefix of `applyTheme` (lines 972-974):
`cancelAnimationFrame(animId); clearTimeout(lightningTimeout);
clearTimeout(shootTimeout)`. -/
def cancelAllHandles (s : SchedState) : SchedState :=
  cancelSlot (cancelSlot (cancelSlot s .anim) .lightning) .shoot

/-- Scheduler effect of `applyTheme` (lines 932-982): cancel all three stored
handles, then re-arm via `applyParticlesAndLighting`. -/
def applyThemeHandles (epoch : ℕ) (precipTheme skyTheme : String) (windSpeed : ℚ)
    (s : SchedState) : SchedState :=
  (applyParticlesAndLighting precipTheme skyTheme windSpeed).foldl (runCmd epoch)
    (cancelAllHandles s)

/-- A pending handle firing between theme changes: `step` (line 791),
`strike` (line 924) and `shootStar` (line 831) each run their callback and
re-arm themselves, storing the fresh handle in the same variable; the owning
epoch is unchanged. -/
def fireSlot (s : SchedState) (k : HKind) : SchedState :=
  match slotOf s k with
  | some hdl =>
    if hdl ∈ s.pending then armSlot (dropPending s hdl) k hdl.owner
    else s
  | none => s

/-- An execution event: an `applyTheme` call (tagged with its epoch) or a
scheduler callback firing. -/
inductive SchedEvent
  | applyT (epoch : ℕ) (precipTheme skyTheme : String) (windSpeed : ℚ)
  | fire (k : HKind)
deriving DecidableEq

def schedStep (s : SchedState) : SchedEvent → SchedState
  | .applyT e p sk w => applyThemeHandles e p sk w s
  | .fire k => fireSlot s k

/-- Run an event sequence from the initial state (no handles armed). -/
def schedRun (evs : List SchedEvent) : SchedState := evs.foldl schedStep {}

/-- Well-formedness of a scheduler state: the pending queue has no duplicates,
every pending handle has an id below the fresh counter, and every pending
handle is exactly the one stored in its system's variable. -/
def SchedInv (s : SchedState) : Prop :=
  s.pending.Nodup ∧ ∀ hdl ∈ s.pending, hdl.id < s.fresh ∧ slotOf s hdl.kind = some hdl

lemma slotOf_dropPending (s : SchedState) (hdl : Handle) (k : HKind) :
    slotOf (dropPending s hdl) k = slotOf s k := by
  cases k <;> rfl

lemma fresh_dropPending (s : SchedState) (hdl : Handle) :
    (dropPending s hdl).fresh = s.fresh := rfl

lemma pending_dropPending (s : SchedState) (hdl : Handle) :
    (dropPending s hdl).pending = s.pending.erase hdl := rfl

lemma schedInv_dropPending {s : SchedState} (hInv : SchedInv s) (hdl : Handle) :
    SchedInv (dropPending s hdl) := by
  refine ⟨hInv.1.erase hdl, fun g hg => ?_⟩
  have hg' : g ∈ s.pending := List.erase_subset _ _ hg
  exact ⟨(hInv.2 g hg').1, by rw [slotOf_dropPending]; exact (hInv.2 g hg').2⟩

lemma slotOf_cancelSlot (s : SchedState) (k k' : HKind) :
    slotOf (cancelSlot s k) k' = slotOf s k' := by
  unfold cancelSlot
  cases slotOf s k
  · rfl
  · rw [slotOf_dropPending]

lemma fresh_cancelSlot (s : SchedState) (k : HKind) :
    (cancelSlot s k).fresh = s.fresh := by
  unfold cancelSlot
  cases slotOf s k <;> rfl

lemma pending_cancelSlot_subset (s : SchedState) (k : HKind) :
    (cancelSlot s k).pending ⊆ s.pending := by
  unfold cancelSlot
  cases slotOf s k
  · exact fun g hg => hg
  · exact fun g hg => List.erase_subset _ _ hg

lemma schedInv_cancelSlot {s : SchedState} (hInv : SchedInv s) (k : HKind) :
    SchedInv (cancelSlot s k) := by
  unfold cancelSlot
  cases slotOf s k
  · exact hInv
  · exact schedInv_dropPending hInv _

/-- After cancelling the stored handle of kind `k`, no pending handle of
kind `k` remains (in a well-formed state the stored handle is the only one). -/
lemma cancelSlot_no_kind {s : SchedState} (hInv : SchedInv s) (k : HKind) :
    ∀ hdl ∈ (cancelSlot s k).pending, hdl.kind ≠ k := by
  intro hdl hmem hk
  subst hk
  have hmem' : hdl ∈ s.pending := pending_cancelSlot_subset s hdl.kind hmem
  have hslot : slotOf s hdl.kind = some hdl := (hInv.2 hdl hmem').2
  unfold cancelSlot at hmem
  rw [hslot] at hmem
  rw [pending_dropPending] at hmem
  exact ((hInv.1.mem_erase_iff).mp hmem).1 rfl

lemma cancelAllHandles_pending_nil {s : SchedState} (hInv : SchedInv s) :
    (cancelAllHandles s).pending = [] := by
  rw [List.eq_nil_iff_forall_not_mem]
  intro hdl hmem
  have hInv1 : SchedInv (cancelSlot s .anim) := schedInv_cancelSlot hInv .anim
  have hInv2 : SchedInv (cancelSlot (cancelSlot s .anim) .lightning) :=
    schedInv_cancelSlot hInv1 .lightning
  have hmem2 : hdl ∈ (cancelSlot (cancelSlot s .anim) .lightning).pending :=
    pending_cancelSlot_subset _ _ hmem
  have hmem1 : hdl ∈ (cancelSlot s .anim).pending := pending_cancelSlot_subset _ _ hmem2
  have hne1 : hdl.kind ≠ .anim := cancelSlot_no_kind hInv .anim hdl hmem1
  have hne2 : hdl.kind ≠ .lightning := cancelSlot_no_kind hInv1 .lightning hdl hmem2
  have hne3 : hdl.kind ≠ .shoot := cancelSlot_no_kind hInv2 .shoot hdl hmem
  cases hk : hdl.kind
  · exact hne1 hk
  · exact hne2 hk
  · exact hne3 hk

lemma pending_armSlot (s : SchedState) (k : HKind) (o : ℕ) :
    (armSlot s k o).pending = ⟨s.fresh, o, k⟩ :: s.pending := by
  cases k <;> rfl

lemma fresh_armSlot (s : SchedState) (k : HKind) (o : ℕ) :
    (armSlot s k o).fresh = s.fresh + 1 := by
  cases k <;> rfl

lemma slotOf_armSlot_self (s : SchedState) (k : HKind) (o : ℕ) :
    slotOf (armSlot s k o) k = some ⟨s.fresh, o, k⟩ := by
  cases k <;> rfl

lemma slotOf_armSlot_ne (s : SchedState) (k k' : HKind) (o : ℕ) (hne : k' ≠ k) :
    slotOf (armSlot s k o) k' = slotOf s k' := by
  cases k <;> cases k' <;> simp_all [armSlot, slotOf]

/-- Arming a kind that has no pending handle preserves well-formedness. -/
lemma schedInv_armSlot {s : SchedState} (hInv : SchedInv s) (k : HKind) (o : ℕ)
    (hnk : ∀ g ∈ s.pending, g.kind ≠ k) : SchedInv (armSlot s k o) := by
  have hnotmem : (⟨s.fresh, o, k⟩ : Handle) ∉ s.pending := fun hmem =>
    absurd (hInv.2 _ hmem).1 (lt_irrefl s.fresh)
  constructor
  · rw [pending_armSlot]
    exact List.nodup_cons.mpr ⟨hnotmem, hInv.1⟩
  · intro g hg
    rw [pending_armSlot] at hg
    rw [fresh_armSlot]
    rcases List.mem_cons.mp hg with rfl | hg'
    · exact ⟨Nat.lt_succ_self _, slotOf_armSlot_self s k o⟩
    · refine ⟨Nat.lt_succ_of_lt (hInv.2 g hg').1, ?_⟩
      rw [slotOf_armSlot_ne s k g.kind o (hnk g hg')]
      exact (hInv.2 g hg').2

/-- Kinds armed by one build call. -/
def cmdArmKinds : Cmd → List HKind
  | .animLoop _ => [.anim]
  | .buildLightning => [.lightning]
  | .buildStars => [.shoot]
  | _ => []

/-- Kinds armed by a command list, in order. -/
def armKinds (cmds : List Cmd) : List HKind := (cmds.map cmdArmKinds).flatten

lemma armKinds_nodup (p sk : String) (w : ℚ) :
    (armKinds (applyParticlesAndLighting p sk w)).Nodup := by
  unfold applyParticlesAndLighting
  split_ifs <;> simp [armKinds, cmdArmKinds]

lemma arm_step {s : SchedState} (epoch : ℕ) (k : HKind) (rest : List HKind)
    (hInv : SchedInv s) (hnd : (k :: rest).Nodup)
    (hP : ∀ hdl ∈ s.pending, hdl.owner = epoch ∧ hdl.kind ∉ k :: rest) :
    SchedInv (armSlot s k epoch) ∧
      ∀ hdl ∈ (armSlot s k epoch).pending, hdl.owner = epoch ∧ hdl.kind ∉ rest := by
  have hnk : ∀ g ∈ s.pending, g.kind ≠ k := fun g hg hk =>
    (hP g hg).2 (hk ▸ List.mem_cons_self k rest)
  refine ⟨schedInv_armSlot hInv k epoch hnk, fun hdl hm => ?_⟩
  rw [pending_armSlot] at hm
  rcases List.mem_cons.mp hm with rfl | hm'
  · exact ⟨rfl, (List.nodup_cons.mp hnd).1⟩
  · exact ⟨(hP hdl hm').1, fun hk => (hP hdl hm').2 (List.mem_cons_of_mem k hk)⟩

lemma foldl_runCmd_spec (epoch : ℕ) :
    ∀ (cmds : List Cmd) (s : SchedState), SchedInv s → (armKinds cmds).Nodup →
      (∀ hdl ∈ s.pending, hdl.owner = epoch ∧ hdl.kind ∉ armKinds cmds) →
      SchedInv (cmds.foldl (runCmd epoch) s) ∧
        ∀ hdl ∈ (cmds.foldl (runCmd epoch) s).pending, hdl.owner = epoch := by
  intro cmds
  induction cmds with
  | nil =>
    intro s hInv _ hP
    exact ⟨hInv, fun hdl hm => (hP hdl hm).1⟩
  | cons c rest ih =>
    intro s hInv hnd hP
    have hsplit : armKinds (c :: rest) = cmdArmKinds c ++ armKinds rest := by
      simp [armKinds]
    rw [hsplit] at hnd hP
    rw [List.foldl_cons]
    cases c with
    | animLoop ty =>
      have step := arm_step epoch .anim (armKinds rest) hInv hnd hP
      exact ih _ step.1 (List.Nodup.of_cons hnd) step.2
    | buildLightning =>
      have step := arm_step epoch .lightning (armKinds rest) hInv hnd hP
      exact ih _ step.1 (List.Nodup.of_cons hnd) step.2
    | buildStars =>
      have hInv' : SchedInv (cancelSlot s .shoot) := schedInv_cancelSlot hInv .shoot
      have hP' : ∀ hdl ∈ (cancelSlot s .shoot).pending,
          hdl.owner = epoch ∧ hdl.kind ∉ HKind.shoot :: armKinds rest := fun hdl hm =>
        hP hdl (pending_cancelSlot_subset s .shoot hm)
      have step := arm_step epoch .shoot (armKinds rest) hInv' hnd hP'
      exact ih _ step.1 (List.Nodup.of_cons hnd) step.2
    | initRain heavy => exact ih s hInv hnd hP
    | initSnow => exact ih s hInv hnd hP
    | buildFireflies => exact ih s hInv hnd hP
    | buildMist r g b => exact ih s hInv hnd hP
    | buildWindStreaks w => exact ih s hInv hnd hP

lemma applyThemeHandles_spec (e : ℕ) (p sk : String) (w : ℚ) (s : SchedState)
    (hInv : SchedInv s) :
    SchedInv (applyThemeHandles e p sk w s) ∧
      ∀ hdl ∈ (applyThemeHandles e p sk w s).pending, hdl.owner = e := by
  have hInv3 : SchedInv (cancelAllHandles s) :=
    schedInv_cancelSlot (schedInv_cancelSlot (schedInv_cancelSlot hInv .anim) .lightning) .shoot
  have hnil := cancelAllHandles_pending_nil hInv
  unfold applyThemeHandles
  exact foldl_runCmd_spec e _ _ hInv3 (armKinds_nodup p sk w)
    (by rw [hnil]; intro hdl hm; cases hm)

lemma schedInv_fireSlot {s : SchedState} (hInv : SchedInv s) (k : HKind) :
    SchedInv (fireSlot s k) := by
  unfold fireSlot
  cases hsl : slotOf s k with
  | none => exact hInv
  | some hdl =>
    show SchedInv (if hdl ∈ s.pending then armSlot (dropPending s hdl) k hdl.owner else s)
    split_ifs with hmem
    · have hInv' : SchedInv (dropPending s hdl) := schedInv_dropPending hInv hdl
      refine schedInv_armSlot hInv' k hdl.owner fun g hg hk => ?_
      rw [pending_dropPending] at hg
      have hg' : g ∈ s.pending := List.erase_subset _ _ hg
      have hgslot : slotOf s g.kind = some g := (hInv.2 g hg').2
      rw [hk, hsl] at hgslot
      exact ((hInv.1.mem_erase_iff).mp hg).1 (Option.some_injective _ hgslot).symm
    · exact hInv

lemma schedInv_empty : SchedInv ({} : SchedState) :=
  ⟨List.nodup_nil, fun hdl hm => absurd hm (List.not_mem_nil hdl)⟩

lemma schedInv_run (evs : List SchedEvent) : SchedInv (schedRun evs) := by
  unfold schedRun
  suffices hgen : ∀ s, SchedInv s → SchedInv (evs.foldl schedStep s) from
    hgen {} schedInv_empty
  induction evs with
  | nil => exact fun s hInv => hInv
  | cons e rest ih =>
    intro s hInv
    rw [List.foldl_cons]
    refine ih _ ?_
    cases e with
    | applyT ep p sk w => exact (applyThemeHandles_spec ep p sk w s hInv).1
    | fire k => exact schedInv_fireSlot hInv k

/-- C1: after any run of theme changes and scheduler callbacks ending in an
`applyTheme` call, every handle still pending was armed by that final call —
no animation-frame loop, lightning scheduler or shooting-star scheduler armed
by an earlier `applyTheme` survives.  Moreover the cancellation prefix of
`applyTheme` empties the pending queue before any new system is armed. -/
theorem c1_theme_change_cancels_handles :
    (∀ (evs : List SchedEvent) (e : ℕ) (p sk : String) (w : ℚ),
      ∀ hdl ∈ (schedRun (evs ++ [SchedEvent.applyT e p sk w])).pending, hdl.owner = e) ∧
    (∀ s : SchedState, SchedInv s → (cancelAllHandles s).pending = []) := by
  constructor
  · intro evs e p sk w hdl hm
    have hInv : SchedInv (schedRun evs) := schedInv_run evs
    have hrw : schedRun (evs ++ [SchedEvent.applyT e p sk w]) =
        applyThemeHandles e p sk w (schedRun evs) := by
      simp [schedRun, List.foldl_append, schedStep]
    rw [hrw] at hm
    exact (applyThemeHandles_spec e p sk w _ hInv).2 hdl hm
  · intro s hInv
    exact cancelAllHandles_pending_nil hInv

/-- Witness for C1: a `storm` theme (arming the rain loop and the lightning
scheduler) followed by a clear `night` theme leaves exactly one pending
handle — the new shooting-star scheduler, owned by the second call. -/
theorem c1_theme_change_cancels_handles_witness :
    (⟨2, 2, HKind.shoot⟩ : Handle) ∈
        (schedRun ([SchedEvent.applyT 1 "storm" "day" 0] ++
          [SchedEvent.applyT 2 "day" "night" 0])).pending ∧
      (⟨2, 2, HKind.shoot⟩ : Handle).owner = 2 ∧
      SchedInv ({} : SchedState) ∧ (cancelAllHandles ({} : SchedState)).pending = [] :=
  ⟨by decide,
    c1_theme_change_cancels_handles.1 [SchedEvent.applyT 1 "storm" "day" 0] 2 "day" "night" 0
      ⟨2, 2, HKind.shoot⟩ (by decide),
    schedInv_empty,
    c1_theme_change_cancels_handles.2 {} schedInv_empty⟩

/-! ## C9: wind streak count -/

/-- `buildWindStreaks` (part_001 lines 985-1009): the number of streak
elements created — zero below 5 mph, else `Math.round(Math.min(w / 2.5, 22))`
(`Math.round x = ⌊x + 1/2⌋`, as `round` on `ℚ`). -/
def buildWindStreakCount (windSpeed : ℚ) : ℤ :=
  if windSpeed < 5 then 0 else round (min (windSpeed / 2.5) 22)

/-- C9: zero streaks below 5 mph, otherwise exactly
`round (min (w / 2.5) 22)`, saturating at 22 for all speeds ≥ 55 mph; and
`applyParticlesAndLighting` never issues a `buildWindStreaks` call while the
precipitation theme is rain, storm or snow. -/
theorem c9_wind_streak_count :
    (∀ w : ℚ, w < 5 → buildWindStreakCount w = 0) ∧
    (∀ w : ℚ, ¬w < 5 → buildWindStreakCount w = round (min (w / 2.5) 22)) ∧
    (∀ w : ℚ, 55 ≤ w → buildWindStreakCount w = 22) ∧
    (∀ (p sk : String) (ws w' : ℚ), p = "rain" ∨ p = "storm" ∨ p = "snow" →
      Cmd.buildWindStreaks w' ∉ applyParticlesAndLighting p sk ws) := by
  refine ⟨?_, ?_, ?_, ?_⟩
  · intro w hw
    simp [buildWindStreakCount, hw]
  · intro w hw
    simp [buildWindStreakCount, hw]
  · intro w hw
    have h5 : ¬w < 5 := by linarith
    have hmin : min (w / 2.5) 22 = 22 := min_eq_right (by
      rw [le_div_iff (by norm_num : (0 : ℚ) < 2.5)]
      linarith)
    rw [buildWindStreakCount, if_neg h5, hmin,
      show ((22 : ℚ)) = ((22 : ℤ) : ℚ) by norm_num, round_intCast]
  · rintro p sk ws w' (rfl | rfl | rfl) <;> simp [applyParticlesAndLighting]

/-- Witness for C9: 60 mph saturates at 22 streaks, 2 mph yields none, and a
rain theme issues no wind-streak build call. -/
theorem c9_wind_streak_count_witness :
    (55 : ℚ) ≤ 60 ∧ buildWindStreakCount 60 = 22 ∧
      (2 : ℚ) < 5 ∧ buildWindStreakCount 2 = 0 ∧
      Cmd.buildWindStreaks 60 ∉ applyParticlesAndLighting "rain" "day" 60 :=
  ⟨by norm_num, c9_wind_streak_count.2.2.1 60 (by norm_num), by norm_num,
    c9_wind_streak_count.1 2 (by norm_num),
    c9_wind_streak_count.2.2.2 "rain" "day" 60 60 (Or.inl rfl)⟩

/-! ## C8: fetchWeather cache retention (src/unnamed/part_002) -/

/-- Outcome of the HTTP exchange attempted by `fetchWeather`: the request (or
body parse) throwing, a non-OK status, an empty observation list, or a first
observation value. -/
inductive FetchOutcome (α : Type) where
  | throwsErr (msg : String)
  | notOk (status : ℕ)
  | noObservations
  | okObs (firstObs : α)
deriving DecidableEq

/-- The module-level cache `weatherCache` / `weatherCacheTime`
(part_002 lines 3-4). -/
structure WeatherCacheState (α : Type) where
  weatherCache : Option α
  weatherCacheTime : ℤ
deriving DecidableEq

/-- The `{ data, error? }` result shape of `fetchWeather`. -/
structure FetchResult (α : Type) where
  data : Option α
  error : Option String
deriving DecidableEq

def WEATHER_CACHE_DURATION_MS : ℤ := 10 * 60 * 1000

/-- The body of the `try` block (part_002 lines 16-33); a throw from `fetch`
or `res.json()` is `Except.error`. -/
def fetchWeatherTry {α : Type} (s : WeatherCacheState α) (now : ℤ) (o : FetchOutcome α) :
    Except String (FetchResult α × WeatherCacheState α) :=
  match o with
  | .throwsErr m => .error m
  | .notOk st => .ok (⟨none, some ("Weather API error: " ++ toString st)⟩, s)
  | .noObservations => .ok (⟨none, some "No observations returned"⟩, s)
  | .okObs obs => .ok (⟨some obs, none⟩, ⟨some obs, now⟩)

/-- `fetchWeather` (part_002 lines 7-37): return the cached value while fresh;
otherwise run the request, catching any throw into an error result (so no
exception ever propagates); only a successful non-empty response updates the
cache. -/
def fetchWeather {α : Type} (s : WeatherCacheState α) (now : ℤ) (o : FetchOutcome α) :
    FetchResult α × WeatherCacheState α :=
  if s.weatherCache.isSome ∧ now - s.weatherCacheTime < WEATHER_CACHE_DURATION_MS then
    (⟨s.weatherCache, none⟩, s)
  else
    match fetchWeatherTry s now o with
    | .ok r => r
    | .error e => (⟨none, some e⟩, s)

/-- C8: when the request throws, returns a non-OK status or yields no
observations, `fetchWeather` returns an error value (never an exception — it
is total, the catch being explicit in its definition), leaves the cached
observation and timestamp unchanged, and any later call made while the prior
cache is fresh still serves that prior cached value. -/
theorem c8_fetch_failure_keeps_cache {α : Type} (s : WeatherCacheState α) (now : ℤ)
    (o : FetchOutcome α)
    (hfail : (∃ m, o = .throwsErr m) ∨ (∃ st, o = .notOk st) ∨ o = .noObservations) :
    (fetchWeather s now o).2 = s ∧
    ((fetchWeather s now o).1.data = s.weatherCache ∨ (fetchWeather s now o).1.data = none) ∧
    (∀ (v : α) (now₂ : ℤ) (o₂ : FetchOutcome α), s.weatherCache = some v →
      now₂ - s.weatherCacheTime < WEATHER_CACHE_DURATION_MS →
      (fetchWeather s now₂ o₂).1 = ⟨some v, none⟩) := by
  refine ⟨?_, ?_, ?_⟩
  · unfold fetchWeather
    split_ifs with hfresh
    · rfl
    · rcases hfail with ⟨m, rfl⟩ | ⟨st, rfl⟩ | rfl <;> rfl
  · unfold fetchWeather
    split_ifs with hfresh
    · exact Or.inl rfl
    · rcases hfail with ⟨m, rfl⟩ | ⟨st, rfl⟩ | rfl <;> exact Or.inr rfl
  · intro v now₂ o₂ hv hfresh₂
    unfold fetchWeather
    rw [if_pos ⟨by rw [hv]; rfl, hfresh₂⟩, hv]

/-- Witness for C8: a stale cache holding observation `7` survives a
no-observations response, and a later fresh read still serves `7`. -/
theorem c8_fetch_failure_keeps_cache_witness :
    (fetchWeather (⟨some 7, 0⟩ : WeatherCacheState ℕ) 999999999 .noObservations).2 =
        ⟨some 7, 0⟩ ∧
      (fetchWeather (⟨some 7, 0⟩ : WeatherCacheState ℕ) 100 .noObservations).1 =
        ⟨some 7, none⟩ :=
  have main := c8_fetch_failure_keeps_cache (⟨some 7, 0⟩ : WeatherCacheState ℕ)
    999999999 .noObservations (Or.inr (Or.inr rfl))
  ⟨main.1, main.2.2 7 100 .noObservations rfl (by decide)⟩

/-! ## C3: alert banner severity selection (part_001 lines 1037-1071) -/

/-- Alert feature properties as read by `fetchAlerts`. -/
structure AlertProps where
  status : String
  severity : Option String := none
  headline : Option String := none
  event : Option String := none
deriving DecidableEq

/-- The severity rank table `ord` (part_001 lines 1051-1057):
Extreme 0, Severe 1, Moderate 2, Minor 3, Unknown 4. -/
def sevOrd (s : String) : Option ℕ :=
  if s = "Extreme" then some 0
  else if s = "Severe" then some 1
  else if s = "Moderate" then some 2
  else if s = "Minor" then some 3
  else if s = "Unknown" then some 4
  else none

/-- The comparator key `ord[a.properties.severity] || 4` (line 1059).
JavaScript `||` replaces every falsy value by 4 — including the looked-up
rank `0` of an `Extreme` alert, which therefore sorts as 4, tied with
`Unknown` and after `Severe`, `Moderate` and `Minor`. -/
def jsSortKey (p : AlertProps) : ℕ :=
  match p.severity with
  | none => 4
  | some s =>
    match sevOrd s with
    | none => 4
    | some n => if n = 0 then 4 else n

/-- The banner state `fetchAlerts` leaves behind. -/
inductive Banner where
  | hidden
  | shown (top : AlertProps) (more : ℕ)
deriving DecidableEq

/-- The rendering decision of `fetchAlerts` (part_001 lines 1043-1068) on an
already-parsed feature list: keep `Actual`-status entries; none → hide the
banner (and the `has-alert` layout shift); otherwise show the head of the
ascending stable sort by `jsSortKey` (`Array.prototype.sort` is stable, so a
stable insertion sort models it), with the count of further alerts. -/
def alertBanner (feats : List AlertProps) : Banner :=
  let active := feats.filter fun f => f.status == "Actual"
  if active.isEmpty then .hidden
  else
    match List.insertionSort (fun a b => jsSortKey a ≤ jsSortKey b) active with
    | [] => .hidden
    | top :: _ => .shown top (active.length - 1)

def extremeAlert : AlertProps :=
  { status := "Actual", severity := some "Extreme", headline := some "Tornado Emergency" }

def severeAlert : AlertProps :=
  { status := "Actual", severity := some "Severe", headline := some "Thunderstorm Warning" }

/-- C3 (code bug): with two Actual alerts of severities Extreme and Severe,
the banner shows the Severe alert, although the code's own rank table puts
Extreme first (rank 0): the `|| 4` fallback treats the falsy rank 0 as
missing, so the Extreme alert sorts with key 4 behind the Severe alert's
key 1.  The empty-list behaviour (banner hidden) is as claimed. -/
theorem c3_alert_severity_bug :
    alertBanner [extremeAlert, severeAlert] = .shown severeAlert 1 ∧
    sevOrd "Extreme" = some 0 ∧ sevOrd "Severe" = some 1 ∧
    jsSortKey extremeAlert = 4 ∧ jsSortKey severeAlert = 1 ∧
    extremeAlert ∈ [extremeAlert, severeAlert].filter (fun f => f.status == "Actual") ∧
    alertBanner [] = .hidden ∧
    alertBanner [{ status := "Test", severity := some "Extreme" }] = .hidden := by
  decide

/-! ## C10: POST /api/arc replaces the arc section wholesale -/

/-- A parsed JSON value as the arc endpoint's key filter distinguishes them:
a finite number, a non-finite number (`NaN`/`Infinity`), or anything else. -/
inductive JsValue where
  | num (q : ℚ)
  | nonFiniteNum
  | str (s : String)
  | boolean (b : Bool)
  | nullVal
  | jsUndefined
  | objVal
deriving DecidableEq

structure GoogleDriveCfg where
  folder_id : Option String := none
deriving DecidableEq

structure WeatherCfg where
  api_key : Option String := none
  station_id : Option String := none
deriving DecidableEq

structure SlideshowCfg where
  image_duration_seconds : Option ℚ := none
  weather_duration_seconds : Option ℚ := none
deriving DecidableEq

structure ServerCfg where
  host : Option String := none
  port : Option ℚ := none
deriving DecidableEq

/-- `Partial<ArcConfig>` as persisted in `config.json`. -/
structure PartialArcConfig where
  xRight : Option ℚ := none
  xLeft : Option ℚ := none
  yHorizon : Option ℚ := none
  yPeak : Option ℚ := none
  arcExp : Option ℚ := none
deriving DecidableEq

/-- `AppConfig` (part_001 lines 2067-2073). -/
structure AppConfig where
  google_drive : Option GoogleDriveCfg := none
  weather : Option WeatherCfg := none
  slideshow : Option SlideshowCfg := none
  arc : Option PartialArcConfig := none
  server : Option ServerCfg := none
deriving DecidableEq

/-- `typeof body[key] === 'number' && isFinite(body[key])` (arc endpoint
line 23). -/
def finiteNum : JsValue → Option ℚ
  | .num q => some q
  | _ => none

/-- The allowed-key loop of POST /api/arc (lines 20-26): each of the five
fields is kept exactly when the request value is a finite number. -/
def extractArc (body : String → JsValue) : PartialArcConfig :=
  { xRight := finiteNum (body "xRight")
    xLeft := finiteNum (body "xLeft")
    yHorizon := finiteNum (body "yHorizon")
    yPeak := finiteNum (body "yPeak")
    arcExp := finiteNum (body "arcExp") }

/-- `saveConfig({ arc })` (part_001 lines 2092-2097): `Object.assign(cfg,
patch)` with a patch holding only the `arc` key replaces the `arc` section
wholesale and leaves every other section untouched. -/
def saveConfigArc (cfg : AppConfig) (arc : PartialArcConfig) : AppConfig :=
  { cfg with arc := some arc }

/-- POST /api/arc (src/svelte/src/routes/api/arc/+server.ts lines 12-30): an
unparsable body yields a 400 error without saving; otherwise the filtered arc
object is extracted and saved.  The `Bool` marks success. -/
def postArc (cfg : AppConfig) (body : Option (String → JsValue)) : AppConfig × Bool :=
  match body with
  | none => (cfg, false)
  | some b => (saveConfigArc cfg (extractArc b), true)

lemma finiteNum_eq_some (v : JsValue) (q : ℚ) : finiteNum v = some q ↔ v = .num q := by
  cases v <;> simp [finiteNum]

/-- C10: a successful POST /api/arc replaces the persisted arc section
wholesale — afterwards it holds exactly the request fields that are finite
numbers (previously stored arc fields are dropped, not merged) — while the
other config sections are unchanged. -/
theorem c10_arc_post_replaces_wholesale (cfg : AppConfig) (b : String → JsValue) :
    (postArc cfg (some b)).1.arc = some (extractArc b) ∧
    (postArc cfg (some b)).1.google_drive = cfg.google_drive ∧
    (postArc cfg (some b)).1.weather = cfg.weather ∧
    (postArc cfg (some b)).1.slideshow = cfg.slideshow ∧
    (postArc cfg (some b)).1.server = cfg.server ∧
    (∀ q : ℚ, (extractArc b).xRight = some q ↔ b "xRight" = .num q) ∧
    (∀ q : ℚ, (extractArc b).xLeft = some q ↔ b "xLeft" = .num q) ∧
    (∀ q : ℚ, (extractArc b).yHorizon = some q ↔ b "yHorizon" = .num q) ∧
    (∀ q : ℚ, (extractArc b).yPeak = some q ↔ b "yPeak" = .num q) ∧
    (∀ q : ℚ, (extractArc b).arcExp = some q ↔ b "arcExp" = .num q) :=
  ⟨rfl, rfl, rfl, rfl, rfl,
    fun q => finiteNum_eq_some (b "xRight") q,
    fun q => finiteNum_eq_some (b "xLeft") q,
    fun q => finiteNum_eq_some (b "yHorizon") q,
    fun q => finiteNum_eq_some (b "yPeak") q,
    fun q => finiteNum_eq_some (b "arcExp") q⟩

/-- Request body used by the C10 witness: `xRight` a finite number, `yPeak`
non-finite, `arcExp` a string, everything else absent. -/
def bodyEx : String → JsValue := fun k =>
  if k = "xRight" then .num 90
  else if k = "yPeak" then .nonFiniteNum
  else if k = "arcExp" then .str "x"
  else .jsUndefined

/-- Prior config used by the C10 witness: a weather section and a previously
stored arc section that the POST must drop. -/
def cfgEx : AppConfig :=
  { weather := some { api_key := some "k" }, arc := some { xRight := some 1, xLeft := some 2 } }

/-- Witness for C10: the stored arc keeps only `xRight` (the one finite
number), the old `xLeft` is gone, and the weather section is untouched. -/
theorem c10_arc_post_replaces_wholesale_witness :
    (postArc cfgEx (some bodyEx)).1.arc = some (extractArc bodyEx) ∧
      (postArc cfgEx (some bodyEx)).1.weather = cfgEx.weather ∧
      ((extractArc bodyEx).xRight = some 90 ↔ bodyEx "xRight" = JsValue.num 90) ∧
      extractArc bodyEx = { xRight := some 90 } :=
  have main := c10_arc_post_replaces_wholesale cfgEx bodyEx
  ⟨main.1, main.2.2.1, main.2.2.2.2.2.1 90, rfl⟩

/-! ## C6: celestialScreenPos (part_001 lines 360-370) -/

/-- `ArcConfig` (part_001 lines 205-211). -/
structure ArcConfig where
  xRight : ℝ
  xLeft : ℝ
  yHorizon : ℝ
  yPeak : ℝ
  arcExp : ℝ

/-- `celestialScreenPos` (part_001 lines 365-370): `x = xRight −
(xRight − xLeft)·t`, `y = yHorizon − (yHorizon − yPeak)·sin(π t)^arcExp`.
`Math.pow` on a non-negative base matches real exponentiation (`Real.rpow`)
including the JavaScript convention `pow(0, 0) = 1`; `pow(0, e)` for `e < 0`
is `Infinity` in JavaScript and has no real value, so claims about this model
are only faithful for `arcExp ≥ 0`. -/
noncomputable def celestialScreenPos (t : ℝ) (cfg : ArcConfig) : ℝ × ℝ :=
  (cfg.xRight - (cfg.xRight - cfg.xLeft) * t,
   cfg.yHorizon - (cfg.yHorizon - cfg.yPeak) * Real.sin (Real.pi * t) ^ cfg.arcExp)

/-- C6 counterexample: the claim quantifies over every `arcExp`, but at
`arcExp = 0` the endpoint value is `pow(sin 0, 0) = pow(0, 0) = 1` (both in
JavaScript and in `Real.rpow`), so `arcPosition(0, cfg)` lands at
`(xRight, yPeak)`, not `(xRight, yHorizon)`: with the default config numbers
and `arcExp := 0` the y-coordinate is 32, not 115. -/
theorem c6_arc_position_counterexample :
    celestialScreenPos 0 ⟨92, 8, 115, 32, 0⟩ = (92, 32) ∧
    celestialScreenPos 0 ⟨92, 8, 115, 32, 0⟩ ≠ (92, 115) := by
  have heval : celestialScreenPos 0 ⟨92, 8, 115, 32, 0⟩ = (92, 32) := by
    unfold celestialScreenPos
    simp only [mul_zero, Real.sin_zero, Real.rpow_zero]
    norm_num
  refine ⟨heval, ?_⟩
  rw [heval]
  intro hcontra
  have := congrArg Prod.snd hcontra
  norm_num at this

/-- C6 (amended): for every arc config with `arcExp > 0` (the shape exponent
is documented and tuned as a positive number; `arcExp = 0` is the
counterexample and negative exponents blow up at the horizon in JavaScript),
`arcPosition(0) = (xRight, yHorizon)`, `arcPosition(1) = (xLeft, yHorizon)`,
and `arcPosition(0.5).y = yPeak`. -/
theorem c6_arc_position_amended (cfg : ArcConfig) (hpos : 0 < cfg.arcExp) :
    celestialScreenPos 0 cfg = (cfg.xRight, cfg.yHorizon) ∧
    celestialScreenPos 1 cfg = (cfg.xLeft, cfg.yHorizon) ∧
    (celestialScreenPos 0.5 cfg).2 = cfg.yPeak := by
  have hne : cfg.arcExp ≠ 0 := ne_of_gt hpos
  refine ⟨?_, ?_, ?_⟩
  · unfold celestialScreenPos
    simp only [mul_zero, Real.sin_zero]
    rw [Real.zero_rpow hne]
    simp only [Prod.mk.injEq]
    constructor <;> ring
  · unfold celestialScreenPos
    simp only [mul_one, Real.sin_pi]
    rw [Real.zero_rpow hne]
    simp only [Prod.mk.injEq]
    constructor <;> ring
  · unfold celestialScreenPos
    have hhalf : Real.pi * (0.5 : ℝ) = Real.pi / 2 := by ring
    rw [hhalf, Real.sin_pi_div_two, Real.one_rpow]
    ring

/-- Witness for C6 at the default config with `arcExp = 1`. -/
theorem c6_arc_position_amended_witness :
    (0 : ℝ) < 1 ∧
      (celestialScreenPos 0 ⟨92, 8, 115, 32, 1⟩ = (92, 115) ∧
        celestialScreenPos 1 ⟨92, 8, 115, 32, 1⟩ = (8, 115) ∧
        (celestialScreenPos 0.5 ⟨92, 8, 115, 32, 1⟩).2 = 32) :=
  ⟨by norm_num, c6_arc_position_amended ⟨92, 8, 115, 32, 1⟩ (by norm_num)⟩

/-! ## C7: getSunTimes (src/unnamed/part_003)

The trigonometric chain is embedded over `ℝ` (the exact-real idealization of
the JavaScript doubles).  The date enters only as the day-of-year `N`
(line 11) and the browser timezone only as `localOffsetHours` (line 13), so
both are plain real parameters here. -/

noncomputable section

/-- Truncation toward zero on the reals (the quotient JavaScript `%` uses). -/
def rTrunc (r : ℝ) : ℤ := if 0 ≤ r then ⌊r⌋ else ⌈r⌉

/-- JavaScript remainder `x % y` on real-valued numbers: the result has the
dividend's sign. -/
def rRem (x y : ℝ) : ℝ := x - y * rTrunc (x / y)

/-- `((T ... ) % 24 + 24) % 24` (part_003 line 27): normalization of the local
fractional hour into [0, 24). -/
def frac24 (x : ℝ) : ℝ := rRem (rRem x 24 + 24) 24

lemma rRem_nonneg_eq (x : ℝ) (hx : 0 ≤ x) : rRem x 24 = 24 * Int.fract (x / 24) := by
  unfold rRem rTrunc
  rw [if_pos (div_nonneg hx (by norm_num))]
  have hfr : Int.fract (x / 24) = x / 24 - ⌊x / 24⌋ := rfl
  rw [hfr]
  ring

lemma rRem_neg_eq (x : ℝ) (hx : x < 0) : rRem x 24 = -(24 * Int.fract (-(x / 24))) := by
  unfold rRem rTrunc
  have hq : x / 24 < 0 := div_neg_of_neg_of_pos hx (by norm_num)
  rw [if_neg (not_le.mpr hq)]
  have hceil : (⌈x / 24⌉ : ℤ) = -⌊-(x / 24)⌋ := by rw [Int.floor_neg, neg_neg]
  rw [hceil]
  have hfr : Int.fract (-(x / 24)) = -(x / 24) - ⌊-(x / 24)⌋ := rfl
  rw [hfr]
  push_cast
  ring

/-- The double JavaScript remainder equals the mathematical mod-24 residue. -/
lemma frac24_eq (x : ℝ) : frac24 x = 24 * Int.fract (x / 24) := by
  unfold frac24
  rcases le_or_lt 0 x with hx | hx
  · rw [rRem_nonneg_eq x hx]
    have hfr0 : (0 : ℝ) ≤ Int.fract (x / 24) := Int.fract_nonneg _
    rw [rRem_nonneg_eq _ (by linarith)]
    have harg : (24 * Int.fract (x / 24) + 24) / 24 = Int.fract (x / 24) + 1 := by ring
    rw [harg, show Int.fract (x / 24) + 1 = Int.fract (x / 24) + ((1 : ℤ) : ℝ) by norm_num,
      Int.fract_add_int, Int.fract_fract]
  · rw [rRem_neg_eq x hx]
    have hy0 : (0 : ℝ) ≤ Int.fract (-(x / 24)) := Int.fract_nonneg _
    have hy1 : Int.fract (-(x / 24)) < 1 := Int.fract_lt_one _
    rw [rRem_nonneg_eq _ (by linarith)]
    have harg : (-(24 * Int.fract (-(x / 24))) + 24) / 24 = -Int.fract (-(x / 24)) + 1 := by
      ring
    rw [harg, show -Int.fract (-(x / 24)) + 1 = -Int.fract (-(x / 24)) + ((1 : ℤ) : ℝ)
      by norm_num, Int.fract_add_int]
    by_cases hz : Int.fract (-(x / 24)) = 0
    · have hz' : Int.fract (x / 24) = 0 := Int.fract_neg_eq_zero.mp hz
      rw [hz, hz', neg_zero, Int.fract_zero]
    · have hself : Int.fract (Int.fract (-(x / 24))) = Int.fract (-(x / 24)) :=
        Int.fract_fract _
      have h2 : Int.fract (-Int.fract (-(x / 24))) = 1 - Int.fract (-(x / 24)) := by
        rw [Int.fract_neg (by rw [hself]; exact hz), hself]
      have h3 : Int.fract (x / 24) = 1 - Int.fract (-(x / 24)) := by
        have hxx : x / 24 = -(-(x / 24)) := by ring
        nth_rewrite 1 [hxx]
        exact Int.fract_neg hz
      rw [h2, h3]

lemma frac24_nonneg (x : ℝ) : 0 ≤ frac24 x := by
  rw [frac24_eq]
  exact mul_nonneg (by norm_num) (Int.fract_nonneg _)

lemma frac24_lt (x : ℝ) : frac24 x < 24 := by
  rw [frac24_eq]
  have := Int.fract_lt_one (x / 24)
  linarith

lemma frac24_eq_self {x : ℝ} (h0 : 0 ≤ x) (h24 : x < 24) : frac24 x = x := by
  rw [frac24_eq, Int.fract_eq_self.mpr
    ⟨div_nonneg h0 (by norm_num), (div_lt_one (by norm_num)).mpr h24⟩]
  ring

lemma frac24_add_int_mul (x : ℝ) (k : ℤ) : frac24 (x + 24 * k) = frac24 x := by
  rw [frac24_eq, frac24_eq]
  have harg : (x + 24 * (k : ℝ)) / 24 = x / 24 + (k : ℝ) := by ring
  rw [harg, Int.fract_add_int]

lemma frac24_neg_eq {d : ℝ} (h0 : 0 < d) (h24 : d < 24) : frac24 (-d) = 24 - d := by
  rw [frac24_eq]
  have h1 : -d / 24 = -(d / 24) := by ring
  have hself : Int.fract (d / 24) = d / 24 := Int.fract_eq_self.mpr
    ⟨le_of_lt (div_pos h0 (by norm_num)), (div_lt_one (by norm_num)).mpr h24⟩
  have hne : Int.fract (d / 24) ≠ 0 := by
    rw [hself]
    exact ne_of_gt (div_pos h0 (by norm_num))
  rw [h1, Int.fract_neg hne, hself]
  ring

lemma frac24_sub_floor (x : ℝ) : frac24 x = x - 24 * (⌊x / 24⌋ : ℝ) := by
  rw [frac24_eq]
  have hfr : Int.fract (x / 24) = x / 24 - ⌊x / 24⌋ := rfl
  rw [hfr]
  ring

/-- Day-fraction argument `t` (part_003 line 16): `N + ((6 or 18) − lon/15)/24`. -/
def sunT (isSunrise : Bool) (N lon : ℝ) : ℝ :=
  N + ((if isSunrise then (6 : ℝ) else 18) - lon / 15) / 24

/-- Mean anomaly `M` (line 17). -/
def sunM (t : ℝ) : ℝ := rRem (0.9856 * t - 3.289 + 360) 360

/-- Ecliptic longitude `L` (line 18). -/
def sunL (t : ℝ) : ℝ :=
  rRem (sunM t + 1.916 * Real.sin (sunM t * (Real.pi / 180)) +
    0.020 * Real.sin (2 * sunM t * (Real.pi / 180)) + 282.634 + 360) 360

/-- Quadrant-corrected right ascension in hours (lines 19-20). -/
def sunRA (t : ℝ) : ℝ :=
  let RA0 := rRem ((180 / Real.pi) *
    Real.arctan (0.91764 * Real.tan (sunL t * (Real.pi / 180))) + 360) 360
  (RA0 + ((⌊sunL t / 90⌋ : ℝ) * 90 - (⌊RA0 / 90⌋ : ℝ) * 90)) / 15

/-- `sinDec` (line 21). -/
def sunSinDec (t : ℝ) : ℝ := 0.39782 * Real.sin (sunL t * (Real.pi / 180))

/-- `cosDec` (line 22). -/
def sunCosDec (t : ℝ) : ℝ := Real.cos (Real.arcsin (sunSinDec t))

/-- `cosH` (line 23): the hour-angle cosine whose range decides the polar
`null` case. -/
def sunCosH (lat t : ℝ) : ℝ :=
  (Real.cos (90.833 * (Real.pi / 180)) - sunSinDec t * Real.sin (lat * (Real.pi / 180))) /
    (sunCosDec t * Real.cos (lat * (Real.pi / 180)))

/-- Hour angle in hours (line 25). -/
def sunH (isSunrise : Bool) (lat t : ℝ) : ℝ :=
  if isSunrise then (360 - (180 / Real.pi) * Real.arccos (sunCosH lat t)) / 15
  else ((180 / Real.pi) * Real.arccos (sunCosH lat t)) / 15

/-- Local mean time `T` (line 26). -/
def sunTT (isSunrise : Bool) (lat t : ℝ) : ℝ :=
  sunH isSunrise lat t + sunRA t - 0.06571 * t - 6.622

/-- The pre-normalization local hour `T - lngHour + localOffsetHours`
(line 27, before the mod-24 reduction). -/
def sunLocalRaw (isSunrise : Bool) (lat lon N off : ℝ) : ℝ :=
  sunTT isSunrise lat (sunT isSunrise N lon) - lon / 15 + off

/-- One branch of `getSunTimes` (part_003 lines 15-28): `null` when the
hour-angle cosine falls outside [-1, 1] (polar day/night), else the local
fractional hour reduced into [0, 24). -/
def sunCalc (isSunrise : Bool) (lat lon N off : ℝ) : Option ℝ :=
  if 1 < sunCosH lat (sunT isSunrise N lon) ∨ sunCosH lat (sunT isSunrise N lon) < -1 then
    none
  else some (frac24 (sunLocalRaw isSunrise lat lon N off))

/-- `getSunTimes` (part_003 lines 6-31). -/
def getSunTimes (lat lon N off : ℝ) : Option ℝ × Option ℝ :=
  (sunCalc true lat lon N off, sunCalc false lat lon N off)

/-- The declination cosine is at least 0.9: `|sinDec| ≤ 0.39782` and
`cos (arcsin v) = √(1 − v²) ≥ √0.81`. -/
lemma sunCosDec_ge (t : ℝ) : 0.9 ≤ sunCosDec t := by
  unfold sunCosDec
  rw [Real.cos_arcsin]
  have hs : |Real.sin (sunL t * (Real.pi / 180))| ≤ 1 := Real.abs_sin_le_one _
  have h1 : |sunSinDec t| ≤ 0.39782 := by
    unfold sunSinDec
    rw [abs_mul, abs_of_pos (by norm_num : (0 : ℝ) < 0.39782)]
    nlinarith [abs_nonneg (Real.sin (sunL t * (Real.pi / 180)))]
  have h2 : sunSinDec t ^ 2 ≤ 0.39782 ^ 2 := by
    have := abs_le.mp h1
    nlinarith
  have h3 : (0.81 : ℝ) ≤ 1 - sunSinDec t ^ 2 := by nlinarith
  calc (0.9 : ℝ) = Real.sqrt 0.81 := by
        rw [show (0.81 : ℝ) = 0.9 ^ 2 by norm_num, Real.sqrt_sq (by norm_num)]
    _ ≤ Real.sqrt (1 - sunSinDec t ^ 2) := Real.sqrt_le_sqrt h3

/-- The 90.833° apparent-horizon cosine is tiny: `|cos 90.833°| ≤ 0.015`. -/
lemma abs_cos_horizon : |Real.cos (90.833 * (Real.pi / 180))| ≤ 0.015 := by
  have hrw : Real.cos (90.833 * (Real.pi / 180)) =
      Real.sin (Real.pi / 2 - 90.833 * (Real.pi / 180)) := (Real.sin_pi_div_two_sub _).symm
  have harg : Real.pi / 2 - 90.833 * (Real.pi / 180) = -(0.833 * (Real.pi / 180)) := by ring
  rw [hrw, harg, Real.sin_neg, abs_neg]
  have hy0 : 0 < 0.833 * (Real.pi / 180) := by positivity
  have hyle : 0.833 * (Real.pi / 180) ≤ 0.015 := by nlinarith [Real.pi_lt_315]
  have hypi : 0.833 * (Real.pi / 180) ≤ Real.pi := by nlinarith [Real.pi_pos]
  rw [abs_of_nonneg (Real.sin_nonneg_of_nonneg_of_le_pi (le_of_lt hy0) hypi)]
  calc Real.sin (0.833 * (Real.pi / 180)) ≤ 0.833 * (Real.pi / 180) :=
        le_of_lt (Real.sin_lt hy0)
    _ ≤ 0.015 := hyle

/-- At the equator the hour-angle cosine is always within [-1, 1], so
`getSunTimes` is non-null there for every longitude, date and offset. -/
lemma abs_sunCosH_lat0_le (t : ℝ) : |sunCosH 0 t| ≤ 1 := by
  unfold sunCosH
  simp only [zero_mul, Real.sin_zero, Real.cos_zero, mul_zero, sub_zero, mul_one]
  have hd : 0.9 ≤ sunCosDec t := sunCosDec_ge t
  have hdpos : 0 < sunCosDec t := by linarith
  rw [abs_div, abs_of_pos hdpos]
  have hstep : |Real.cos (90.833 * (Real.pi / 180))| / sunCosDec t ≤ 0.015 / 0.9 :=
    div_le_div (by norm_num) abs_cos_horizon (by norm_num) hd
  have : (0.015 : ℝ) / 0.9 ≤ 1 := by norm_num
  linarith

lemma sunCalc_lat0 (isSunrise : Bool) (lon N off : ℝ) :
    sunCalc isSunrise 0 lon N off = some (frac24 (sunLocalRaw isSunrise 0 lon N off)) := by
  unfold sunCalc
  rw [if_neg]
  have hb := abs_le.mp (abs_sunCosH_lat0_le (sunT isSunrise N lon))
  rintro (h1 | h2)
  · linarith [hb.2]
  · linarith [hb.1]

/-- C7 (amended): whenever `getSunTimes` returns non-null sunrise and sunset,
both lie in [0, 24); and `sunrise < sunset` holds whenever the two
pre-normalization local times fall in the same 24-hour window in the right
order — the mod-24 reduction can otherwise wrap one of them past midnight
and reverse the order (an offset far from −lon/15 does exactly that). -/
theorem c7_sun_times_range (lat lon N off r s : ℝ)
    (hr : sunCalc true lat lon N off = some r)
    (hs : sunCalc false lat lon N off = some s) :
    (0 ≤ r ∧ r < 24) ∧ (0 ≤ s ∧ s < 24) ∧
    (sunLocalRaw true lat lon N off < sunLocalRaw false lat lon N off →
      ⌊sunLocalRaw true lat lon N off / 24⌋ = ⌊sunLocalRaw false lat lon N off / 24⌋ →
      r < s) := by
  have hr' : r = frac24 (sunLocalRaw true lat lon N off) := by
    unfold sunCalc at hr
    split_ifs at hr with hcond
    exact (Option.some_injective _ hr).symm
  have hs' : s = frac24 (sunLocalRaw false lat lon N off) := by
    unfold sunCalc at hs
    split_ifs at hs with hcond
    exact (Option.some_injective _ hs).symm
  subst hr' hs'
  refine ⟨⟨frac24_nonneg _, frac24_lt _⟩, ⟨frac24_nonneg _, frac24_lt _⟩, ?_⟩
  intro hlt hfloor
  rw [frac24_sub_floor, frac24_sub_floor, hfloor]
  linarith

/-- Adversarial inputs for the C7 counterexample: the equator on day 100 of
the year with longitude 0, and an offset chosen (within [-12, 12)) so that
the mod-24 reduction wraps sunrise past midnight. -/
def caA : ℝ := sunLocalRaw true 0 0 100 0

def caB : ℝ := sunLocalRaw false 0 0 100 0

/-- The day length modulo 24 at the counterexample inputs. -/
def caD : ℝ := frac24 (caB - caA)

/-- The adversarial UTC offset: it places the reduced sunset at `caD / 2` and
the reduced sunrise at `24 - caD / 2` (or both at 0 when `caD = 0`). -/
def caOff : ℝ := frac24 (caD / 2 - caB + 12) - 12

lemma sunLocalRaw_off (isSunrise : Bool) (lat lon N off : ℝ) :
    sunLocalRaw isSunrise lat lon N off = sunLocalRaw isSunrise lat lon N 0 + off := by
  unfold sunLocalRaw
  ring

/-- C7 counterexample: at lat 0, lon 0, day-of-year 100 and the offset
`caOff ∈ [-12, 12)`, both sun times are non-null, yet the returned sunrise is
not less than the returned sunset — the claim's `sunrise < sunset` fails for
this latitude/longitude/date/offset combination. -/
theorem c7_sun_times_counterexample :
    sunCalc true 0 0 100 caOff = some (frac24 (sunLocalRaw true 0 0 100 caOff)) ∧
    sunCalc false 0 0 100 caOff = some (frac24 (sunLocalRaw false 0 0 100 caOff)) ∧
    -12 ≤ caOff ∧ caOff < 12 ∧
    ¬(frac24 (sunLocalRaw true 0 0 100 caOff) < frac24 (sunLocalRaw false 0 0 100 caOff)) := by
  have hd0 : 0 ≤ caD := frac24_nonneg _
  have hd24 : caD < 24 := frac24_lt _
  have hA : sunLocalRaw true 0 0 100 caOff = caA + caOff := by
    rw [sunLocalRaw_off]
    rfl
  have hB : sunLocalRaw false 0 0 100 caOff = caB + caOff := by
    rw [sunLocalRaw_off]
    rfl
  have hk : caOff = caD / 2 - caB - 24 * ((⌊(caD / 2 - caB + 12) / 24⌋ : ℤ) : ℝ) := by
    unfold caOff
    rw [frac24_sub_floor]
    ring
  have hm : caB - caA = caD + 24 * ((⌊(caB - caA) / 24⌋ : ℤ) : ℝ) := by
    unfold caD
    rw [frac24_sub_floor]
    ring
  have hsv : frac24 (caB + caOff) = frac24 (caD / 2) := by
    rw [hk]
    have harg : caB + (caD / 2 - caB - 24 * ((⌊(caD / 2 - caB + 12) / 24⌋ : ℤ) : ℝ)) =
        caD / 2 + 24 * (((-⌊(caD / 2 - caB + 12) / 24⌋ : ℤ)) : ℝ) := by
      push_cast
      ring
    rw [harg, frac24_add_int_mul]
  have hrv : frac24 (caA + caOff) = frac24 (-(caD / 2)) := by
    rw [hk]
    have harg : caA + (caD / 2 - caB - 24 * ((⌊(caD / 2 - caB + 12) / 24⌋ : ℤ) : ℝ)) =
        -(caD / 2) + 24 * (((-⌊(caB - caA) / 24⌋ - ⌊(caD / 2 - caB + 12) / 24⌋ : ℤ)) : ℝ) := by
      push_cast
      linear_combination -hm
    rw [harg, frac24_add_int_mul]
  refine ⟨sunCalc_lat0 true 0 100 caOff, sunCalc_lat0 false 0 100 caOff, ?_, ?_, ?_⟩
  · unfold caOff
    have := frac24_nonneg (caD / 2 - caB + 12)
    linarith
  · unfold caOff
    have := frac24_lt (caD / 2 - caB + 12)
    linarith
  · rw [hA, hB, hrv, hsv]
    rcases eq_or_lt_of_le hd0 with heq | hpos
    · rw [← heq]
      norm_num
    · rw [frac24_neg_eq (by linarith) (by linarith),
        frac24_eq_self (by linarith) (by linarith)]
      intro hcon
      linarith

/-- Witness for C7 at the equator, longitude 0, day 100, offset 5. -/
theorem c7_sun_times_range_witness :
    ((0 : ℝ) ≤ frac24 (sunLocalRaw true 0 0 100 5) ∧
        frac24 (sunLocalRaw true 0 0 100 5) < 24) ∧
      ((0 : ℝ) ≤ frac24 (sunLocalRaw false 0 0 100 5) ∧
        frac24 (sunLocalRaw false 0 0 100 5) < 24) ∧
      (sunLocalRaw true 0 0 100 5 < sunLocalRaw false 0 0 100 5 →
        ⌊sunLocalRaw true 0 0 100 5 / 24⌋ = ⌊sunLocalRaw false 0 0 100 5 / 24⌋ →
        frac24 (sunLocalRaw true 0 0 100 5) < frac24 (sunLocalRaw false 0 0 100 5)) :=
  c7_sun_times_range 0 0 100 5 _ _ (sunCalc_lat0 true 0 100 5) (sunCalc_lat0 false 0 100 5)

end

end SlideShow
